import Mathlib

/-!
Verification development for the MIKA governed cognitive assistant.

This file gives a shallow embedding, in Lean 4, of the governance triad of the
repository: the `GovernorEngine` policy engine (`src/engine.py`), the
`MemoryCore` two-tier memory store (`src/memory.py`), the affect / reward
machinery (`src/emotion.py`, `src/feedback.py`) and the per-turn pipeline
`MikaAssistant.handle_input` (`src/assistant.py`).

Modelling conventions:
* Python floats are modelled as exact rationals (`ℚ`); IEEE-754 rounding
  artifacts and Python's decimal rendering of floats are abstracted.
* Wall-clock reads (`datetime.utcnow()`, `time.time()`) are threaded in as
  explicit parameters.
* Python dicts with statically known keys become structures; dicts with
  dynamic keys become ordered association lists with Python's update-in-place
  / append-new-key semantics.
* Fallible Python code that the sources wrap in `try/except` becomes total
  functions returning the fail-closed value, mirroring the handlers.
-/

/-- A YAML value as traversed by `GovernorEngine._lookup_permission`
(`src/engine.py`): either a mapping (Python `dict`, modelled as an ordered
association list with unique keys) or any non-mapping value.  Indexing a
non-mapping with a string key raises in Python (`TypeError` / `KeyError`) and
is caught by the bare `except`, so only mapping-ness of a node is semantically
relevant; the payload of scalars is irrelevant to traversal and omitted. -/
inductive YamlNode where
  | map (entries : List (String × YamlNode))
  | scalar

/-- `GovernorDecision` dataclass (`src/engine.py` lines 12-16). -/
structure GovernorDecision where
  allowed : Bool
  reason : String
  requires_approval : Bool
deriving DecidableEq

/-- Python truthiness of a `GovernorDecision` value.  The dataclass defines
neither `__bool__` nor `__len__`, so every instance is truthy regardless of
its `allowed` field.  `MikaAssistant.handle_input` tests
`if not self.governor.allows(...)`, i.e. the truthiness of the decision
object, not its `allowed` field. -/
def GovernorDecision.truthy (_ : GovernorDecision) : Bool := true

/-- One entry of `GovernorEngine.audit_log`: the dict appended by
`GovernorEngine._audit` (`src/engine.py` lines 105-113).  The `decision`
field stores `str(decision)`, a rendered string. -/
structure AuditRecord where
  time : String
  event : String
  subject : String
  decision : String
deriving DecidableEq

/-- State of a `GovernorEngine` instance: the immutable rule tree (split into
its three consulted tables) plus the mutable audit log.
`permissions` models `rules["permissions"]`, `approval_required_for` models
`rules["approval_required_for"]`, and `personality_clamp` models
`rules["learning_bounds"]["personality_clamp"]` as a table of `[min, max]`
pairs. -/
structure GovernorState where
  permissions : YamlNode
  approval_required_for : List String
  personality_clamp : List (String × (ℚ × ℚ))
  audit_log : List AuditRecord

/-- Python `s.split(sep)` for a one-character separator, on the underlying
character list: splitting the empty string yields `[""]`, and separators at
the ends yield empty fragments, exactly as in Python. -/
def pySplitChars (sep : Char) : List Char → List (List Char)
  | [] => [[]]
  | c :: rest =>
      let groups := pySplitChars sep rest
      if c = sep then [] :: groups
      else
        match groups with
        | g :: gs => (c :: g) :: gs
        | [] => [[c]]

/-- Python `s.split(sep)` for a one-character separator. -/
def pySplit (sep : Char) (s : String) : List String :=
  (pySplitChars sep s.data).map String.mk

/-- Python `s.lower()` (ASCII case folding suffices for the strings the
sources compare). -/
def pyLower (s : String) : String :=
  String.mk (s.data.map fun c =>
    if 65 ≤ c.toNat ∧ c.toNat ≤ 90 then Char.ofNat (c.toNat + 32) else c)

/-- Python `sep.join(parts)`. -/
def pyJoin (sep : String) : List String → String
  | [] => ""
  | [x] => x
  | x :: xs => x ++ sep ++ pyJoin sep xs

/-- Python `sub in s` (substring containment), on the underlying characters. -/
def strContains (s sub : String) : Bool :=
  decide (sub.data <:+: s.data)

/-- Python `s.endswith(suffix)`. -/
def strEndsWith (s suffix : String) : Bool :=
  suffix.data.isSuffixOf s.data

/-- The loop body of `GovernorEngine._lookup_permission` (`src/engine.py`
lines 87-99): walk the node along the path segments.  A missing key
(`KeyError`) or a non-mapping node (`TypeError`) is caught by the
`except Exception` and yields `False`; exhausting all segments yields
`True`. -/
def permWalk : YamlNode → List String → Bool
  | _, [] => true
  | YamlNode.map entries, seg :: rest =>
      match entries.lookup seg with
      | some child => permWalk child rest
      | none => false
  | YamlNode.scalar, _ :: _ => false

/-- `GovernorEngine._lookup_permission`: split the dot-delimited path and walk
the `permissions` subtree. -/
def lookup_permission (g : GovernorState) (path : String) : Bool :=
  permWalk g.permissions (pySplit '.' path)

/-- `GovernorEngine._requires_approval` (`src/engine.py` lines 101-103):
`any(path.endswith(a) or a in path for a in approvals)`. -/
def requires_approval_match (g : GovernorState) (path : String) : Bool :=
  g.approval_required_for.any fun a => strEndsWith path a || strContains path a

/-- Python `str(b)` for a bool. -/
def pyBoolStr (b : Bool) : String := if b then "True" else "False"

/-- Python `str(decision)` for a `GovernorDecision` dataclass (its `repr`). -/
def govDecisionStr (d : GovernorDecision) : String :=
  "GovernorDecision(allowed=" ++ pyBoolStr d.allowed ++ ", reason=\x27" ++
    d.reason ++ "\x27, requires_approval=" ++ pyBoolStr d.requires_approval ++ ")"

/-- Python `str({"input": value, "output": clamped})` as appended by `clamp`;
the decimal rendering of the floats is abstracted by the rationals' canonical
rendering. -/
def clampOutcomeStr (value clamped : ℚ) : String :=
  "\x7b\x27input\x27: " ++ toString value ++ ", \x27output\x27: " ++
    toString clamped ++ "\x7d"

/-- `GovernorEngine._audit`: append one record to the audit log.  The
timestamp `datetime.utcnow().isoformat()` is the explicit `now` argument. -/
def govAudit (g : GovernorState) (now event subject decision : String) :
    GovernorState :=
  { g with audit_log := g.audit_log ++ [⟨now, event, subject, decision⟩] }

/-- `GovernorEngine.allows` (`src/engine.py` lines 39-54): build the decision
from the permission lookup and the approval substring match, audit it, and
return it together with the updated engine state. -/
def allows (g : GovernorState) (now : String) (permission_path : String) :
    GovernorDecision × GovernorState :=
  let isAllowed := lookup_permission g permission_path
  let decision : GovernorDecision :=
    { allowed := isAllowed
      reason := if isAllowed then "allowed" else "forbidden"
      requires_approval := requires_approval_match g permission_path }
  (decision, govAudit g now "permission_check" permission_path (govDecisionStr decision))

/-- The bounds lookup inside `GovernorEngine.clamp`:
`rules.get("learning_bounds", {}).get("personality_clamp", {}).get(key)`.
`none` covers the Python-falsy cases guarded by `if not bounds`. -/
def clampBounds (g : GovernorState) (key : String) : Option (ℚ × ℚ) :=
  g.personality_clamp.lookup key

/-- `GovernorEngine.clamp` (`src/engine.py` lines 56-78): with no configured
bounds for `key` the value is returned unchanged and, notably, no audit record
is appended (the early `return value` precedes the `_audit` call); with bounds
`[min_v, max_v]` the result is `max(min_v, min(max_v, value))` and one record
is appended. -/
def clamp (g : GovernorState) (now : String) (category key : String) (value : ℚ) :
    ℚ × GovernorState :=
  match clampBounds g key with
  | none => (value, g)
  | some (min_v, max_v) =>
      let clamped := max min_v (min max_v value)
      (clamped,
       govAudit g now "clamp" (category ++ "." ++ key) (clampOutcomeStr value clamped))

/-- `GovernorEngine.requires_approval` (exact membership, distinct from the
substring matching of `_requires_approval`). -/
def requires_approval_exact (g : GovernorState) (action : String) : Bool :=
  g.approval_required_for.contains action

/-- `MemoryItem` dataclass (`src/memory.py` lines 9-17).  The `emotion` dict
may carry arbitrary keys when loaded from disk, so it is an ordered
association list. -/
structure MemoryItem where
  timestamp : ℚ
  user_input : String
  assistant_response : String
  intent : String
  emotion : List (String × ℚ)
  importance : ℚ
  summary : Option String := none
deriving DecidableEq

/-- State of a `MemoryCore` instance (`src/memory.py` lines 20-34), minus the
file path (persistence I/O is outside the model; `save` rewrites the file and
does not change in-memory state). -/
structure MemoryState where
  short_term : List MemoryItem
  long_term : List MemoryItem
  short_term_limit : ℕ
  importance_threshold : ℚ
deriving DecidableEq

/-- A fresh `MemoryCore` whose backing file does not exist (`_load` returns
early): both tiers empty. -/
def emptyMemory (limit : ℕ) (threshold : ℚ) : MemoryState :=
  { short_term := [], long_term := [], short_term_limit := limit,
    importance_threshold := threshold }

/-- `MemoryCore._load` (`src/memory.py` lines 38-46) on a successfully parsed
memory file: both lists are assigned verbatim from the file data — no
trimming of `short_term` against the limit and no importance check on
`long_term`. -/
def loadMemory (m : MemoryState) (shortData longData : List MemoryItem) :
    MemoryState :=
  { m with short_term := shortData, long_term := longData }

/-- `MemoryCore.add_interaction` (`src/memory.py` lines 60-84).  The
`time.time()` read is the explicit `ts` argument; the trailing `self.save()`
is persistence I/O and does not change in-memory state.  The overflow check
`len(short_term) > limit` pops exactly one element, the oldest
(`pop(0)` = `List.tail`). -/
def add_interaction (m : MemoryState) (ts : ℚ) (user_input assistant_response
    intent : String) (emotion : List (String × ℚ)) (importance : ℚ) :
    MemoryState :=
  let item : MemoryItem :=
    { timestamp := ts, user_input := user_input,
      assistant_response := assistant_response, intent := intent,
      emotion := emotion, importance := importance }
  let st := m.short_term ++ [item]
  let st := if m.short_term_limit < st.length then st.tail else st
  let lt := if m.importance_threshold ≤ importance then m.long_term ++ [item]
            else m.long_term
  { m with short_term := st, long_term := lt }

/-- Python `totals[k] = totals.get(k, 0.0) + v` on an ordered dict: update the
existing key in place, else append the new key. -/
def dictAdd (d : List (String × ℚ)) (k : String) (v : ℚ) : List (String × ℚ) :=
  match d with
  | [] => [(k, v)]
  | (k', v') :: rest =>
      if k' = k then (k', v' + v) :: rest else (k', v') :: dictAdd rest k v

/-- `MemoryCore.get_emotional_trend` (`src/memory.py` lines 95-102): the empty
mapping when `short_term` is empty; otherwise per-key totals over every item's
emotion snapshot, each divided by `len(short_term)`. -/
def get_emotional_trend (m : MemoryState) : List (String × ℚ) :=
  if m.short_term.isEmpty then []
  else
    let totals := m.short_term.foldl
      (fun acc it => it.emotion.foldl (fun a kv => dictAdd a kv.1 kv.2) acc) []
    totals.map fun kv => (kv.1, kv.2 / (m.short_term.length : ℚ))

/-- `MemoryCore.get_recent_context` (`src/memory.py` lines 88-93). -/
def get_recent_context (m : MemoryState) : String :=
  pyJoin "\n"
    (m.short_term.foldr
      (fun it acc => ("User: " ++ it.user_input) ::
        ("MIKA: " ++ it.assistant_response) :: acc) [])

/-- Python `round(x, 2)` modelled as half-up rounding to two decimal places
(IEEE-754 double artifacts and ties-to-even at exact half-cent boundaries are
abstracted). -/
def round2 (x : ℚ) : ℚ := (⌊x * 100 + 1 / 2⌋ : ℤ) / 100

/-- One `"intent (importance)"` fragment of the consolidation summary,
`f"{m.intent} ({round(m.importance,2)})"`; the decimal rendering of the float
is abstracted by the rational's canonical rendering. -/
def summaryPair (it : MemoryItem) : String :=
  it.intent ++ " (" ++ toString (round2 it.importance) ++ ")"

/-- The joined summary text `" | ".join(...)`. -/
def mkSummaryText (items : List MemoryItem) : String :=
  pyJoin " | " (items.map summaryPair)

/-- Python `l[-n:]`: the last `n` elements for `n ≥ 1` (the whole list when
`n ≥ len(l)`); for `n = 0`, `-0 == 0` so the slice is the entire list. -/
def pySliceLast {α : Type} (n : ℕ) (l : List α) : List α :=
  if n = 0 then l else l.drop (l.length - n)

/-- `MemoryCore.summarize_long_term` (`src/memory.py` lines 106-125): a no-op
when `len(long_term) ≤ max_items`; otherwise the entire long-term list is
replaced by one synthetic item built from `long_term[-max_items:]`, with
intent `"memory_summary"`, importance `1.0` and the current emotional trend.
The `time.time()` read is the explicit `ts` argument and the trailing
`self.save()` is persistence I/O. -/
def summarize_long_term (m : MemoryState) (ts : ℚ) (max_items : ℕ) :
    MemoryState :=
  if m.long_term.length ≤ max_items then m
  else
    let summary_text := mkSummaryText (pySliceLast max_items m.long_term)
    let summary_item : MemoryItem :=
      { timestamp := ts, user_input := "(summary)",
        assistant_response := "(summary)", intent := "memory_summary",
        emotion := get_emotional_trend m, importance := 1,
        summary := some summary_text }
    { m with long_term := [summary_item] }

/-- `EmotionState.emotion_state` (`src/emotion.py` line 7) and
`UserState.emotion_state` (`src/config.py` line 88): a dict with exactly the
four affect axes, always present. -/
structure EmotionMap where
  happiness : ℚ
  sadness : ℚ
  curiosity : ℚ
  affinity : ℚ
deriving DecidableEq

/-- The shared initial affect values
`{"happiness": 0.5, "sadness": 0.2, "curiosity": 0.3, "affinity": 0.0}`. -/
def initEmotionMap : EmotionMap :=
  { happiness := 0.5, sadness := 0.2, curiosity := 0.3, affinity := 0.0 }

/-- `EmotionState.adjust_emotions` (`src/emotion.py` lines 9-18): asymmetric
per-axis scaling of one scalar delta, each axis clamped to `[0, 1]`. -/
def adjust_emotions (e : EmotionMap) (delta : ℚ) : EmotionMap :=
  { happiness := max 0 (min 1 (e.happiness + delta * 0.1))
    sadness := max 0 (min 1 (e.sadness - delta * 0.05))
    curiosity := max 0 (min 1 (e.curiosity + delta * 0.02))
    affinity := max 0 (min 1 (e.affinity + delta * 0.01)) }

/-- The dict copy `EmotionState.emotional_summary()` returns, in the dict's
insertion order, as passed to `MemoryCore.add_interaction`. -/
def EmotionMap.toAssoc (e : EmotionMap) : List (String × ℚ) :=
  [("happiness", e.happiness), ("sadness", e.sadness),
   ("curiosity", e.curiosity), ("affinity", e.affinity)]

/-- All four axes within `[0, 1]`. -/
def EmotionMap.inRange (e : EmotionMap) : Prop :=
  0 ≤ e.happiness ∧ e.happiness ≤ 1 ∧ 0 ≤ e.sadness ∧ e.sadness ≤ 1 ∧
  0 ≤ e.curiosity ∧ e.curiosity ≤ 1 ∧ 0 ≤ e.affinity ∧ e.affinity ≤ 1

instance (e : EmotionMap) : Decidable e.inRange := by
  unfold EmotionMap.inRange; infer_instance

/-- Combined mutable state of a `MikaAssistant` and its owned subsystems
(`src/assistant.py` lines 38-83).  `engine_emotion` is the orchestrator's
`EmotionState.emotion_state`; `config_emotion` is the distinct
`config.state.emotion_state` dict owned by the `Config`/`UserState`
(`src/config.py` lines 86-89); `score` is `RewardSystem.score`
(`src/feedback.py` line 11); `command_keys` are the keys of
`config.commands`; `core_traits` is `config.personality.get("core_traits",
[])`. -/
structure AssistantState where
  governor : GovernorState
  engine_emotion : EmotionMap
  config_emotion : EmotionMap
  score : ℚ
  memory : MemoryState
  command_keys : List String
  core_traits : List String

/-- `RewardSystem.apply_reward` (`src/feedback.py` lines 13-25): add the
points to the running score, then softly couple into
`config.state.emotion_state` — for positive points bump that mapping's
happiness by `0.05` (capped at `1.0`), for negative points bump its sadness by
`0.05` (capped); zero points leave the mapping alone.  The orchestrator's own
`EmotionState` is not touched. -/
def apply_reward (st : AssistantState) (points : ℚ) (reason : String) :
    AssistantState :=
  let _ := reason
  let st := { st with score := st.score + points }
  if 0 < points then
    { st with config_emotion :=
        { st.config_emotion with
            happiness := min 1 (st.config_emotion.happiness + 0.05) } }
  else if points < 0 then
    { st with config_emotion :=
        { st.config_emotion with
            sadness := min 1 (st.config_emotion.sadness + 0.05) } }
  else st

/-- `InternalFeedback.evaluate_response` (`src/feedback.py` lines 33-45),
first component: append the empathy tag when the personality has the
`"empathetic"` trait and the user text contains a distress keyword. -/
def evaluate_response (core_traits : List String) (user_text response : String) :
    String :=
  if core_traits.contains "empathetic" &&
      (["sad", "stressed", "upset"].any fun w => strContains (pyLower user_text) w)
  then response ++ " I\x27m here with you."
  else response

/-- `MikaAssistant._estimate_importance` (`src/assistant.py` lines 193-208).
`sentiment` is `some compound` when `metadata["sentiment"]` is a non-empty
dict (Python `if sentiment:`), with `compound` its `"compound"` entry
(`0.0` when missing); the emotion snapshot always carries all four axes, so
the Python `.get` defaults are unreachable. -/
def estimate_importance (intent : String) (sentiment : Option ℚ)
    (emotion : EmotionMap) : ℚ :=
  let score := |emotion.happiness - 0.5| + |emotion.sadness| + |emotion.curiosity|
  let score := if intent = "gratitude" ∨ intent = "emotion_check" ∨
      intent = "conversation" then score + 0.2 else score
  let score := match sentiment with
    | some compound => score + |compound| * 0.3
    | none => score
  min score 1

/-- `MikaAssistant._llm_response` (`src/assistant.py` lines 210-234), with the
generative model treated as an external collaborator: `none` models
`self.model is None` (fixed placeholder reply); `some raw` models a loaded
model returning `raw` as `out["choices"][0].get("text", "")`. -/
def llm_response : Option String → String
  | none => "I’m listening. Tell me more."
  | some raw => if raw ≠ "" then raw.trim else "I’m listening."

/-- The external collaborators consumed during one turn: the analyzer result
`(intent, metadata)` — with the sentiment sub-dict reduced to its optional
compound score — and the optional generative model output. -/
structure TurnExternal where
  intent : String
  sentiment : Option ℚ
  llm_raw : Option String

/-- `MikaAssistant.handle_input` (`src/assistant.py` lines 139-187).

Control flow mirrored from the source:
* Both governor gates test `if not self.governor.allows(...)`, i.e. the
  truthiness of the `GovernorDecision` dataclass (`GovernorDecision.truthy`),
  which is always `true`, so neither refusal branch is reachable.
* The command branch fires on `text.lower() in self.config.commands`, an
  exact dict-key membership test.
* Inside the command branch, `self.command_processor.resolve_handler` does
  not exist on `CommandProcessor` (`src/commands.py` defines no such
  attribute), so the attribute access raises `AttributeError` inside the
  `try`, the bare `except` replies with the apology string and applies the
  `-1` reward; no handler ever runs.
* `emotion_before` is the affect snapshot taken right after analysis and is
  what both the importance estimate and the stored item use.

Returns the updated state and the spoken (adjusted) response. -/
def handle_input (st : AssistantState) (now : String) (ts : ℚ) (text : String)
    (ext : TurnExternal) : AssistantState × String :=
  let gate := allows st.governor now "cognition.reason"
  if gate.1.truthy = false then
    ({ st with governor := gate.2 }, "I’m not allowed to reason right now.")
  else
    let emotion_before := st.engine_emotion
    let routed : AssistantState × String :=
      if st.command_keys.contains (pyLower text) then
        let gate2 := allows gate.2 now "tools.execute_code_in_sandbox"
        if gate2.1.truthy = false then
          ({ st with governor := gate2.2 },
           "I’m not permitted to execute that command.")
        else
          (apply_reward { st with governor := gate2.2 } (-1) "command_failure",
           "I couldn’t complete that command.")
      else
        ({ st with governor := gate.2 }, llm_response ext.llm_raw)
    let adjusted := evaluate_response st.core_traits text routed.2
    let importance := estimate_importance ext.intent ext.sentiment emotion_before
    let newMemory := add_interaction routed.1.memory ts text adjusted ext.intent
      emotion_before.toAssoc importance
    let st' := { routed.1 with memory := newMemory }
    (st', adjusted)

/-- One event of the affect mutation history considered by the bounded-affect
invariant: either an `EmotionState.adjust_emotions(delta)` call on the
orchestrator's emotion engine, or a `RewardSystem.apply_reward(points, _)`
call. -/
inductive AffectOp where
  | adjust (delta : ℚ)
  | reward (points : ℚ)

/-- Apply one affect event to the assistant state. -/
def affectStep (st : AssistantState) : AffectOp → AssistantState
  | AffectOp.adjust delta =>
      { st with engine_emotion := adjust_emotions st.engine_emotion delta }
  | AffectOp.reward points => apply_reward st points ""

/-- Spec-side reading of "permission path present as a full segment chain":
the permission tree contains nested mappings along every segment of the
path. -/
inductive chain_present : YamlNode → List String → Prop
  | nil (n : YamlNode) : chain_present n []
  | cons (entries : List (String × YamlNode)) (seg : String) (child : YamlNode)
      (rest : List String) : entries.lookup seg = some child →
      chain_present child rest →
      chain_present (YamlNode.map entries) (seg :: rest)

/-- The argument tuple of one `MemoryCore.add_interaction` call (with the
`time.time()` read made explicit). -/
structure AddCall where
  ts : ℚ
  user_input : String
  assistant_response : String
  intent : String
  emotion : List (String × ℚ)
  importance : ℚ

/-- Apply one recorded `add_interaction` call to a memory state. -/
def applyCall (m : MemoryState) (c : AddCall) : MemoryState :=
  add_interaction m c.ts c.user_input c.assistant_response c.intent c.emotion
    c.importance

/-- The `MemoryItem` that `add_interaction` constructs from a call. -/
def AddCall.item (c : AddCall) : MemoryItem :=
  { timestamp := c.ts, user_input := c.user_input,
    assistant_response := c.assistant_response, intent := c.intent,
    emotion := c.emotion, importance := c.importance }

/-- The keys of the default `Config.commands` dict (`src/config.py` lines
104-111), already lower-case as written there. -/
def defaultCommandKeys : List String :=
  ["set timer", "list projects", "thank you", "hi", "how are you",
   "i\x27m good"]

/-- A governor whose `permissions` tree is the empty mapping: every permission
path, in particular `"cognition.reason"`, is denied. -/
def govDenyAll : GovernorState :=
  { permissions := YamlNode.map [], approval_required_for := [],
    personality_clamp := [], audit_log := [] }

/-- A governor granting `cognition.reason` and `tools.execute_code_in_sandbox`
(full segment chains in the permission tree). -/
def govAllowTools : GovernorState :=
  { permissions := YamlNode.map
      [("cognition", YamlNode.map [("reason", YamlNode.map [])]),
       ("tools", YamlNode.map [("execute_code_in_sandbox", YamlNode.map [])])],
    approval_required_for := [], personality_clamp := [], audit_log := [] }

/-- A governor with one configured clamp bound, for exercising `clamp`. -/
def govWithBounds : GovernorState :=
  { permissions := YamlNode.map [], approval_required_for := [],
    personality_clamp := [("learning_rate", (0, 1))], audit_log := [] }

/-- A freshly initialised assistant (default config, fresh memory file) wired
to the given governor: initial affect values on both vectors, zero reward
score, empty memory with the constructor arguments of `src/assistant.py`
lines 70-74, default command keys, and no `core_traits` entry in the default
personality (`DEFAULT_PERSONALITY` has none, so `.get("core_traits", [])` is
empty). -/
def mikaInit (g : GovernorState) : AssistantState :=
  { governor := g, engine_emotion := initEmotionMap,
    config_emotion := initEmotionMap, score := 0,
    memory := emptyMemory 10 0.6, command_keys := defaultCommandKeys,
    core_traits := [] }

/-- An analyzer outcome with no usable sentiment and no generative model. -/
def extPlain : TurnExternal :=
  { intent := "unknown", sentiment := none, llm_raw := none }

/-- A placeholder interaction record, for concrete memory-file contents. -/
def dummyItem (k : ℕ) : MemoryItem :=
  { timestamp := (k : ℚ), user_input := "u", assistant_response := "a",
    intent := "conversation", emotion := [], importance := 0 }

/-- A memory store holding one consolidation-eligible long-term item. -/
def memOneLong : MemoryState :=
  { short_term := [], long_term := [dummyItem 0], short_term_limit := 10,
    importance_threshold := 0.6 }

theorem permWalk_nil (n : YamlNode) : permWalk n [] = true := by
  cases n <;> rfl

theorem permWalk_append (l1 l2 : List String) :
    ∀ n : YamlNode, permWalk n (l1 ++ l2) = true → permWalk n l1 = true := by
  induction l1 with
  | nil => intro n _; exact permWalk_nil n
  | cons s rest ih =>
      intro n h
      cases n with
      | scalar => simp [permWalk] at h
      | map entries =>
          rw [List.cons_append] at h
          unfold permWalk at h ⊢
          cases hl : entries.lookup s with
          | none => rw [hl] at h; exact h
          | some child =>
              rw [hl] at h
              exact ih child h

theorem chain_present_iff (segs : List String) :
    ∀ n : YamlNode, chain_present n segs ↔ permWalk n segs = true := by
  induction segs with
  | nil =>
      intro n
      constructor
      · intro _; exact permWalk_nil n
      · intro _; exact chain_present.nil n
  | cons s rest ih =>
      intro n
      constructor
      · intro h
        cases h with
        | cons entries _ child _ hl hrest =>
            unfold permWalk
            rw [hl]
            exact (ih child).mp hrest
      · intro h
        cases n with
        | scalar => simp [permWalk] at h
        | map entries =>
            unfold permWalk at h
            cases hl : entries.lookup s with
            | none => rw [hl] at h; exact absurd h (by simp)
            | some child =>
                rw [hl] at h
                exact chain_present.cons entries s child rest hl ((ih child).mpr h)

theorem allows_allowed (g : GovernorState) (now path : String) :
    (allows g now path).1.allowed = lookup_permission g path := rfl

theorem allows_reason (g : GovernorState) (now path : String) :
    (allows g now path).1.reason =
      if (allows g now path).1.allowed then "allowed" else "forbidden" := rfl

/-- C7: for every permission path absent from the tree (missing segment, or a
non-mapping node hit mid-traversal — the malformed case, which in Python
raises inside the `try` and is swallowed, never escaping the engine),
`allows` returns `allowed = false` with `reason = "forbidden"`; for every
path present as a full segment chain of nested mappings it returns
`allowed = true` (with `reason = "allowed"`); the lookup is a total function
of the path and leaves the rule tree untouched, so a malformed node fails
closed for that path only. -/
theorem allows_fail_closed (g : GovernorState) (now path : String) :
    ((allows g now path).1.allowed = true ↔
      chain_present g.permissions (pySplit '.' path))
    ∧ ((allows g now path).1.allowed = false →
        (allows g now path).1.reason = "forbidden")
    ∧ ((allows g now path).1.allowed = true →
        (allows g now path).1.reason = "allowed")
    ∧ (∀ s rest, permWalk YamlNode.scalar (s :: rest) = false)
    ∧ (allows g now path).2.permissions = g.permissions := by
  refine ⟨?_, ?_, ?_, ?_, rfl⟩
  · rw [chain_present_iff, allows_allowed, lookup_permission]
  · intro h; rw [allows_reason, h]; rfl
  · intro h; rw [allows_reason, h]; rfl
  · intro s rest; rfl

/-- C7 witness: the empty permission tree denies `"cognition.reason"` with
reason `"forbidden"`, by `allows_fail_closed`. -/
theorem allows_fail_closed_witness :
    (allows govDenyAll "2024-01-01T00:00:00" "cognition.reason").1.allowed = false
    ∧ (allows govDenyAll "2024-01-01T00:00:00" "cognition.reason").1.reason =
        "forbidden" := by
  have hfalse : (allows govDenyAll "2024-01-01T00:00:00" "cognition.reason").1.allowed
      = false := by decide
  exact ⟨hfalse,
    (allows_fail_closed govDenyAll "2024-01-01T00:00:00" "cognition.reason").2.1 hfalse⟩

/-- C10: permission lookup is prefix-monotone — whenever `allows p` reports
`allowed = true`, so does `allows q` for every nonempty dot-delimited prefix
`q` of `p` (its segments a prefix of `p`'s segments): interior nodes of the
permission tree are themselves reported as allowed, not only full leaf
chains. -/
theorem allows_prefix_monotone (g : GovernorState) (now p q : String)
    (hq : q ≠ "") (hpre : pySplit '.' q <+: pySplit '.' p)
    (hp : (allows g now p).1.allowed = true) :
    (allows g now q).1.allowed = true := by
  have _ := hq
  obtain ⟨t, ht⟩ := hpre
  rw [allows_allowed, lookup_permission] at hp ⊢
  rw [← ht] at hp
  exact permWalk_append (pySplit '.' q) t g.permissions hp

/-- C10 witness: `"tools"` is a nonempty dot-delimited prefix of the allowed
`"tools.execute_code_in_sandbox"` and is itself allowed, by
`allows_prefix_monotone`. -/
theorem allows_prefix_monotone_witness :
    "tools" ≠ "" ∧ pySplit '.' "tools" <+: pySplit '.' "tools.execute_code_in_sandbox"
    ∧ (allows govAllowTools "t" "tools.execute_code_in_sandbox").1.allowed = true
    ∧ (allows govAllowTools "t" "tools").1.allowed = true := by
  refine ⟨by decide, by decide, by decide, ?_⟩
  exact allows_prefix_monotone govAllowTools "t" "tools.execute_code_in_sandbox" "tools"
    (by decide) (by decide) (by decide)

/-- C3 counterexample: a `clamp` call whose key has no configured bounds
appends no audit record at all (the early `return value` in
`GovernorEngine.clamp` precedes the `_audit` call), refuting the claim that
every `clamp` call appends exactly one record. -/
theorem clamp_no_bounds_no_audit_cex :
    ¬ ((clamp govWithBounds "2024-01-01T00:00:00" "personality" "other" 0.9).2.audit_log.length
        = govWithBounds.audit_log.length + 1) := by decide

/-- C3 (amended): every `allows` call appends exactly one audit record before
returning; a `clamp` call appends exactly one record when its key has
configured bounds and none when it does not; appended records occupy strictly
increasing positions in the append-only log (the new record sits at index
`length`, after all existing ones) and no field of an existing record changes
after it is appended (every prior index still holds the identical record). -/
theorem audit_append_exactly_one (g : GovernorState)
    (now path category key : String) (value : ℚ) :
    ((allows g now path).2.audit_log.length = g.audit_log.length + 1
      ∧ (∃ r, (allows g now path).2.audit_log = g.audit_log ++ [r])
      ∧ ∀ i, i < g.audit_log.length →
          (allows g now path).2.audit_log[i]? = g.audit_log[i]?)
    ∧ ((clampBounds g key).isSome = true →
        (clamp g now category key value).2.audit_log.length = g.audit_log.length + 1
        ∧ (∃ r, (clamp g now category key value).2.audit_log = g.audit_log ++ [r])
        ∧ ∀ i, i < g.audit_log.length →
            (clamp g now category key value).2.audit_log[i]? = g.audit_log[i]?)
    ∧ (clampBounds g key = none →
        (clamp g now category key value).2.audit_log = g.audit_log) := by
  refine ⟨⟨?_, ⟨_, rfl⟩, ?_⟩, ?_, ?_⟩
  · simp [allows, govAudit]
  · intro i hi
    simp [allows, govAudit, List.getElem?_append_left hi]
  · intro hsome
    rcases hb : clampBounds g key with _ | ⟨bmin, bmax⟩
    · rw [hb] at hsome; simp at hsome
    · refine ⟨?_,
        ⟨⟨now, "clamp", category ++ "." ++ key,
          clampOutcomeStr value (max bmin (min bmax value))⟩, ?_⟩, ?_⟩
      · simp [clamp, hb, govAudit]
      · simp [clamp, hb, govAudit]
      · intro i hi
        simp [clamp, hb, govAudit, List.getElem?_append_left hi]
  · intro hnone
    simp [clamp, hnone]

/-- C3 witness: on a governor with one configured bound, a `clamp` of the
bounded key appends one record and a `clamp` of an unbounded key appends
none, by `audit_append_exactly_one`. -/
theorem audit_append_exactly_one_witness :
    ((clamp govWithBounds "t" "personality" "learning_rate" 5).2.audit_log.length
      = govWithBounds.audit_log.length + 1)
    ∧ (clamp govWithBounds "t" "personality" "other" 5).2.audit_log
        = govWithBounds.audit_log := by
  have h := audit_append_exactly_one govWithBounds "t" "cognition.reason"
    "personality" "learning_rate" 5
  have h2 := audit_append_exactly_one govWithBounds "t" "cognition.reason"
    "personality" "other" 5
  exact ⟨(h.2.1 (by decide)).1, h2.2.2 (by decide)⟩

theorem applyCall_eq (m : MemoryState) (c : AddCall) :
    applyCall m c =
      { m with
        short_term :=
          if m.short_term_limit < (m.short_term ++ [c.item]).length
          then (m.short_term ++ [c.item]).tail
          else m.short_term ++ [c.item],
        long_term :=
          if m.importance_threshold ≤ c.importance
          then m.long_term ++ [c.item]
          else m.long_term } := rfl

/-- C4 (amended): after any sequence of `add_interaction` calls starting from
a fresh (empty) store, `len(short_term) ≤ N` holds — its length is exactly
`min(count, N)` — and `short_term` holds precisely the most recent
`min(count, N)` interactions in insertion order, oldest evicted first (the
suffix of the call sequence); every item appended to `long_term` by
`add_interaction` had `importance ≥ T` at admission (`long_term` is exactly
the `importance ≥ T` filter of the calls).  Loading from durable storage,
however, replaces both sequences verbatim and can violate the bound (see the
counterexample). -/
theorem memory_fifo_invariant (N : ℕ) (T : ℚ) (calls : List AddCall) :
    (calls.foldl applyCall (emptyMemory N T)).short_term
        = (calls.map AddCall.item).drop (calls.length - N)
    ∧ (calls.foldl applyCall (emptyMemory N T)).short_term.length
        = min calls.length N
    ∧ (calls.foldl applyCall (emptyMemory N T)).long_term
        = (calls.map AddCall.item).filter (fun it => decide (T ≤ it.importance))
    ∧ (calls.foldl applyCall (emptyMemory N T)).short_term_limit = N
    ∧ (calls.foldl applyCall (emptyMemory N T)).importance_threshold = T := by
  induction calls using List.reverseRecOn with
  | nil => simp [emptyMemory]
  | append_singleton calls c ih =>
      obtain ⟨hshort, hlen, hlong, hN, hT⟩ := ih
      rw [List.foldl_append]
      simp only [List.foldl_cons, List.foldl_nil]
      rw [applyCall_eq]
      set M := calls.foldl applyCall (emptyMemory N T) with hM
      set k := calls.length with hk
      set items := calls.map AddCall.item with hitems
      have hlen' : items.length = k := by rw [hitems, hk, List.length_map]
      have hmapapp : (calls ++ [c]).map AddCall.item = items ++ [c.item] := by
        rw [List.map_append]; rfl
      have hlenapp : (calls ++ [c]).length = k + 1 := by
        rw [List.length_append, hk]; rfl
      refine ⟨?_, ?_, ?_, hN, hT⟩
      · dsimp only
        rw [hshort, hN, hmapapp, hlenapp]
        by_cases hcase : N ≤ k
        · have hcond : N < (items.drop (k - N) ++ [c.item]).length := by
            rw [List.length_append, List.length_drop, hlen']
            simp
            omega
          rw [if_pos hcond, ← List.drop_one,
            ← List.drop_append_of_le_length (by omega : k - N ≤ items.length),
            List.drop_drop]
          congr 1
          omega
        · have hdrop0 : k - N = 0 := by omega
          have hcond : ¬ N < (items.drop (k - N) ++ [c.item]).length := by
            rw [List.length_append, List.length_drop, hlen']
            simp
            omega
          rw [if_neg hcond]
          have : k + 1 - N = 0 := by omega
          rw [this, hdrop0, List.drop_zero, List.drop_zero]
      · dsimp only
        rw [hshort, hN, hlenapp]
        by_cases hcase : N ≤ k
        · have hcond : N < (items.drop (k - N) ++ [c.item]).length := by
            rw [List.length_append, List.length_drop, hlen']
            simp
            omega
          rw [if_pos hcond, List.length_tail, List.length_append, List.length_drop,
            hlen']
          simp
          omega
        · have hcond : ¬ N < (items.drop (k - N) ++ [c.item]).length := by
            rw [List.length_append, List.length_drop, hlen']
            simp
            omega
          rw [if_neg hcond, List.length_append, List.length_drop, hlen']
          simp
          omega
      · dsimp only
        rw [hlong, hT, hmapapp, List.filter_append]
        by_cases himp : T ≤ c.importance
        · rw [if_pos himp]
          simp [List.filter_singleton, AddCall.item, himp]
        · rw [if_neg himp]
          simp [List.filter_singleton, AddCall.item, himp]

/-- C4 counterexample: `MemoryCore._load` assigns the persisted lists
verbatim without trimming, so loading a file with 11 short-term items into a
store with `short_term_limit = 10` leaves `len(short_term) = 11 > 10`,
refuting the claim for the load operation. -/
theorem load_overflow_cex :
    ¬ ((loadMemory (emptyMemory 10 0.6) ((List.range 11).map dummyItem) []).short_term.length
        ≤ (loadMemory (emptyMemory 10 0.6) ((List.range 11).map dummyItem) []).short_term_limit) := by
  decide

/-- C8 (amended): `summarize_long_term(max_items)` is a no-op when the
long-term sequence has length `≤ max_items`; otherwise it replaces the entire
long-term sequence with exactly one synthetic item whose intent is
`"memory_summary"`, whose importance is `1.0`, whose emotion is the current
emotional trend, and whose summary joins `"intent (importance)"` pairs built
from the slice `long_term[-max_items:]` — which is the most recent
`max_items` entries whenever `max_items ≥ 1` (for `max_items = 0` that
Python slice denotes the whole list; see the counterexample). -/
theorem summarize_long_term_spec (m : MemoryState) (ts : ℚ) (max_items : ℕ) :
    (m.long_term.length ≤ max_items → summarize_long_term m ts max_items = m)
    ∧ (max_items < m.long_term.length →
        (summarize_long_term m ts max_items).long_term =
          [{ timestamp := ts, user_input := "(summary)",
             assistant_response := "(summary)", intent := "memory_summary",
             emotion := get_emotional_trend m, importance := 1,
             summary := some (mkSummaryText (pySliceLast max_items m.long_term)) }]
        ∧ (summarize_long_term m ts max_items).short_term = m.short_term)
    ∧ (1 ≤ max_items →
        pySliceLast max_items m.long_term
          = m.long_term.drop (m.long_term.length - max_items)) := by
  refine ⟨?_, ?_, ?_⟩
  · intro h
    rw [summarize_long_term, if_pos h]
  · intro h
    rw [summarize_long_term, if_neg (by omega)]
    exact ⟨rfl, rfl⟩
  · intro h
    rw [pySliceLast, if_neg (by omega)]

/-- C8 witness: with a single long-term item and `max_items = 20`, the slice
is the "most recent 20" suffix and the call is a no-op, by
`summarize_long_term_spec`. -/
theorem summarize_long_term_spec_witness :
    pySliceLast 20 memOneLong.long_term
        = memOneLong.long_term.drop (memOneLong.long_term.length - 20)
    ∧ summarize_long_term memOneLong 5 20 = memOneLong := by
  have h := summarize_long_term_spec memOneLong 5 20
  exact ⟨h.2.2 (by decide), h.1 (by decide)⟩

/-- C8 counterexample: at `max_items = 0` on a nonempty long-term list, the
Python slice `long_term[-0:]` is the whole list, so the produced summary
joins all entries — not the most recent zero entries, whose join would be
the empty string `mkSummaryText []`. -/
theorem summarize_zero_window_cex :
    (summarize_long_term memOneLong 5 0).long_term =
      [{ timestamp := 5, user_input := "(summary)",
         assistant_response := "(summary)", intent := "memory_summary",
         emotion := [], importance := 1,
         summary := some (mkSummaryText memOneLong.long_term) }]
    ∧ mkSummaryText memOneLong.long_term ≠ mkSummaryText [] := by
  constructor
  · rw [summarize_long_term, if_neg (by decide)]
    have htrend : get_emotional_trend memOneLong = [] := rfl
    have hslice : pySliceLast 0 memOneLong.long_term = memOneLong.long_term := rfl
    rw [htrend, hslice]
  · intro h
    have hdata := congrArg String.data h
    simp [mkSummaryText, memOneLong, pyJoin, summaryPair, dummyItem,
      String.data_append] at hdata

theorem adjust_emotions_inRange (e : EmotionMap) (delta : ℚ) :
    (adjust_emotions e delta).inRange := by
  unfold adjust_emotions EmotionMap.inRange
  refine ⟨?_, ?_, ?_, ?_, ?_, ?_, ?_, ?_⟩ <;>
    first
      | exact le_max_left 0 _
      | exact max_le zero_le_one (min_le_left 1 _)

theorem apply_reward_engine_unchanged (st : AssistantState) (p : ℚ) (r : String) :
    (apply_reward st p r).engine_emotion = st.engine_emotion := by
  unfold apply_reward
  split_ifs <;> rfl

theorem apply_reward_config_inRange (st : AssistantState) (p : ℚ) (r : String)
    (h : st.config_emotion.inRange) :
    (apply_reward st p r).config_emotion.inRange := by
  obtain ⟨h1, h2, h3, h4, h5, h6, h7, h8⟩ := h
  unfold apply_reward EmotionMap.inRange
  split_ifs with hp hn
  · exact ⟨le_min zero_le_one (by linarith), min_le_left 1 _, h3, h4, h5, h6, h7, h8⟩
  · exact ⟨h1, h2, le_min zero_le_one (by linarith), min_le_left 1 _, h5, h6, h7, h8⟩
  · exact ⟨h1, h2, h3, h4, h5, h6, h7, h8⟩

theorem affectStep_adjust (st : AssistantState) (delta : ℚ) :
    (affectStep st (AffectOp.adjust delta)).engine_emotion
        = adjust_emotions st.engine_emotion delta
    ∧ (affectStep st (AffectOp.adjust delta)).config_emotion
        = st.config_emotion := ⟨rfl, rfl⟩

/-- C9: starting from affect vectors with all four axes (happiness, sadness,
curiosity, affinity) in `[0,1]`, every finite sequence of `adjust_emotions`
and `apply_reward` calls with arbitrary finite deltas leaves all four axes of
both touched vectors within `[0,1]` — `adjust_emotions` applies the per-axis
scaling happiness `+δ·0.1`, sadness `−δ·0.05`, curiosity `+δ·0.02`, affinity
`+δ·0.01`, each clamped, and `apply_reward`'s coupling caps at `1.0` while
never pushing an axis below `0`. -/
theorem affect_axes_bounded (ops : List AffectOp) :
    ∀ st : AssistantState, st.engine_emotion.inRange →
    st.config_emotion.inRange →
    (ops.foldl affectStep st).engine_emotion.inRange
    ∧ (ops.foldl affectStep st).config_emotion.inRange := by
  induction ops with
  | nil => intro st h1 h2; exact ⟨h1, h2⟩
  | cons op rest ih =>
      intro st h1 h2
      rw [List.foldl_cons]
      cases op with
      | adjust delta =>
          exact ih _ ((affectStep_adjust st delta).1 ▸
              adjust_emotions_inRange st.engine_emotion delta)
            ((affectStep_adjust st delta).2 ▸ h2)
      | reward p =>
          exact ih _ (apply_reward_engine_unchanged st p "" ▸ h1)
            (apply_reward_config_inRange st p "" h2)

/-- C9 witness: the initial affect state is in range and stays in range under
a concrete mixed event sequence, by `affect_axes_bounded`. -/
theorem affect_axes_bounded_witness :
    (mikaInit govDenyAll).engine_emotion.inRange
    ∧ (mikaInit govDenyAll).config_emotion.inRange
    ∧ (([AffectOp.adjust 2, AffectOp.reward (-3),
          AffectOp.adjust (-7)].foldl affectStep
            (mikaInit govDenyAll)).engine_emotion.inRange
        ∧ ([AffectOp.adjust 2, AffectOp.reward (-3),
            AffectOp.adjust (-7)].foldl affectStep
              (mikaInit govDenyAll)).config_emotion.inRange) := by
  have hin : (mikaInit govDenyAll).engine_emotion.inRange := by
    unfold mikaInit initEmotionMap EmotionMap.inRange
    norm_num
  have hin2 : (mikaInit govDenyAll).config_emotion.inRange := by
    unfold mikaInit initEmotionMap EmotionMap.inRange
    norm_num
  exact ⟨hin, hin2, affect_axes_bounded
    [AffectOp.adjust 2, AffectOp.reward (-3), AffectOp.adjust (-7)]
    (mikaInit govDenyAll) hin hin2⟩

/-- C5 (amended): `apply_reward(points, reason)` adds `points` to the running
reward score, and additionally mutates the `config.state.emotion_state`
mapping owned by the `Config`/`UserState` — for `points > 0` its happiness
axis increases by the fixed step `0.05` (clamped to at most `1.0`), for
`points < 0` its sadness axis increases by the same fixed step (clamped) —
while the orchestrator's own `EmotionState` affect vector is left
untouched. -/
theorem apply_reward_spec (st : AssistantState) (p : ℚ) (r : String) :
    (apply_reward st p r).score = st.score + p
    ∧ (apply_reward st p r).engine_emotion = st.engine_emotion
    ∧ (0 < p → (apply_reward st p r).config_emotion =
        { st.config_emotion with
            happiness := min 1 (st.config_emotion.happiness + 0.05) })
    ∧ (p < 0 → (apply_reward st p r).config_emotion =
        { st.config_emotion with
            sadness := min 1 (st.config_emotion.sadness + 0.05) })
    ∧ (p = 0 → (apply_reward st p r).config_emotion = st.config_emotion) := by
  unfold apply_reward
  split_ifs with hp hn
  · exact ⟨rfl, rfl, fun _ => rfl, fun h => absurd hp (by linarith),
      fun h => absurd hp (by rw [h]; exact lt_irrefl 0)⟩
  · exact ⟨rfl, rfl, fun h => absurd h hp, fun _ => rfl,
      fun h => absurd hn (by rw [h]; exact lt_irrefl 0)⟩
  · exact ⟨rfl, rfl, fun h => absurd h hp, fun h => absurd h hn, fun _ => rfl⟩

/-- C5 witness: a `+1` reward on the initial state adds `1` to the score and
bumps the config-state happiness by the clamped `0.05` step, by
`apply_reward_spec`. -/
theorem apply_reward_spec_witness :
    (apply_reward (mikaInit govDenyAll) 1 "command_success").score
        = (mikaInit govDenyAll).score + 1
    ∧ (apply_reward (mikaInit govDenyAll) 1 "command_success").config_emotion =
        { (mikaInit govDenyAll).config_emotion with
            happiness :=
              min 1 ((mikaInit govDenyAll).config_emotion.happiness + 0.05) } := by
  have h := apply_reward_spec (mikaInit govDenyAll) 1 "command_success"
  exact ⟨h.1, h.2.2.1 (by norm_num)⟩

/-- C5 counterexample: after `apply_reward(1, ...)` on the freshly initialised
assistant, the orchestrator-owned `EmotionState` vector still has happiness
`0.5` — not the `min(1, 0.5 + 0.05) = 0.55` the claim requires of the
orchestrator's vector (the coupling targets `config.state.emotion_state`
instead). -/
theorem apply_reward_engine_vector_cex :
    (0:ℚ) < 1
    ∧ (apply_reward (mikaInit govDenyAll) 1 "command_success").engine_emotion.happiness
        = 0.5
    ∧ min 1 ((0.5:ℚ) + 0.05) ≠ 0.5 := by
  refine ⟨by norm_num, ?_, by norm_num⟩
  rw [apply_reward_engine_unchanged]
  rfl

theorem apply_reward_memory (st : AssistantState) (p : ℚ) (r : String) :
    (apply_reward st p r).memory = st.memory := by
  unfold apply_reward
  split_ifs <;> rfl

theorem add_interaction_getLast (m : MemoryState)
    (hlim : 1 ≤ m.short_term_limit) (ts : ℚ)
    (ui ar intent : String) (emotion : List (String × ℚ)) (importance : ℚ) :
    (add_interaction m ts ui ar intent emotion importance).short_term.getLast?
      = some { timestamp := ts, user_input := ui, assistant_response := ar,
               intent := intent, emotion := emotion, importance := importance } := by
  unfold add_interaction
  dsimp only
  split_ifs with hcond
  · cases hs : m.short_term with
    | nil =>
        rw [hs] at hcond
        simp at hcond
        omega
    | cons x xs =>
        simp [List.getLast?_concat]
  · simp [List.getLast?_concat]

theorem handle_input_memory (st : AssistantState) (now : String) (ts : ℚ)
    (text : String) (ext : TurnExternal) :
    (handle_input st now ts text ext).1.memory
      = add_interaction st.memory ts text (handle_input st now ts text ext).2
          ext.intent st.engine_emotion.toAssoc
          (estimate_importance ext.intent ext.sentiment st.engine_emotion) := by
  by_cases hc : pyLower text ∈ st.command_keys
  · simp [handle_input, GovernorDecision.truthy, hc, apply_reward_memory]
  · simp [handle_input, GovernorDecision.truthy, hc]

/-- C6: the importance score of a turn equals
`|happiness − 0.5| + |sadness| + |curiosity|` computed over the pre-turn
affect snapshot taken right after analysis, plus a flat `0.2` when the intent
is in the privileged set `{gratitude, emotion_check, conversation}`, plus
`|sentiment.compound| × 0.3` when sentiment metadata is present, with the
final result clamped into `[0,1]`; and the item `handle_input` records
carries exactly that importance, computed from (and stored with) the
pre-turn `EmotionState` snapshot. -/
theorem importance_formula_spec (intent : String) (sentiment : Option ℚ)
    (e : EmotionMap) (st : AssistantState) (now : String) (ts : ℚ)
    (text : String) (ext : TurnExternal)
    (hlim : 1 ≤ st.memory.short_term_limit) :
    estimate_importance intent sentiment e =
      min (|e.happiness - 0.5| + |e.sadness| + |e.curiosity|
        + (if intent = "gratitude" ∨ intent = "emotion_check" ∨
             intent = "conversation" then 0.2 else 0)
        + (match sentiment with
           | some compound => |compound| * 0.3
           | none => 0)) 1
    ∧ 0 ≤ estimate_importance intent sentiment e
    ∧ estimate_importance intent sentiment e ≤ 1
    ∧ ((handle_input st now ts text ext).1.memory.short_term.getLast?).map
          (fun it => (it.importance, it.emotion))
        = some (estimate_importance ext.intent ext.sentiment st.engine_emotion,
            st.engine_emotion.toAssoc) := by
  have hformula : estimate_importance intent sentiment e =
      min (|e.happiness - 0.5| + |e.sadness| + |e.curiosity|
        + (if intent = "gratitude" ∨ intent = "emotion_check" ∨
             intent = "conversation" then 0.2 else 0)
        + (match sentiment with
           | some compound => |compound| * 0.3
           | none => 0)) 1 := by
    unfold estimate_importance
    rcases sentiment with _ | c <;> split_ifs <;> ring_nf
  refine ⟨hformula, ?_, ?_, ?_⟩
  · rw [hformula]
    refine le_min ?_ zero_le_one
    rcases sentiment with _ | c <;> split_ifs <;> positivity
  · exact min_le_right _ 1
  · rw [handle_input_memory, add_interaction_getLast st.memory hlim]
    rfl

/-- C6 witness: at a concrete privileged intent with sentiment present, the
importance estimate is within `[0,1]`, by `importance_formula_spec` with its
limit hypothesis discharged on the default store. -/
theorem importance_formula_spec_witness :
    1 ≤ (mikaInit govDenyAll).memory.short_term_limit
    ∧ 0 ≤ estimate_importance "gratitude" (some 0.5) initEmotionMap
    ∧ estimate_importance "gratitude" (some 0.5) initEmotionMap ≤ 1 := by
  have h := importance_formula_spec "gratitude" (some 0.5) initEmotionMap
    (mikaInit govDenyAll) "2024-01-01T00:00:00" 0 "thanks" extPlain (by decide)
  exact ⟨by decide, h.2.1, h.2.2.1⟩

/-- C1 (code-bug evidence): with a governor that denies `"cognition.reason"`
(`allowed = false`), `handle_input` does **not** emit the fixed refusal
message and still writes an item to the memory store — the guard
`if not self.governor.allows(...)` tests the truthiness of the
`GovernorDecision` dataclass, which is always truthy, so the refusal branch
is dead code and the turn proceeds through analysis, routing and the memory
write. -/
theorem denied_gate_turn_proceeds_bug :
    (allows (mikaInit govDenyAll).governor "2024-01-01T00:00:00"
        "cognition.reason").1.allowed = false
    ∧ (handle_input (mikaInit govDenyAll) "2024-01-01T00:00:00" 0 "hello"
        extPlain).2 ≠ "I’m not allowed to reason right now."
    ∧ (handle_input (mikaInit govDenyAll) "2024-01-01T00:00:00" 0 "hello"
        extPlain).1.memory.short_term.length = 1 := by
  refine ⟨by decide, by decide, by decide⟩

/-- C2 (code-bug evidence): for the input `"set timer 5 minutes"` with
`tools.execute_code_in_sandbox` allowed, the turn takes the generative
branch — the routing test `text.lower() in self.config.commands` is an exact
dict-key membership test and `"set timer 5 minutes"` is not a key — so the
response is the no-model placeholder (no `"Timer set for 5 minutes"`) and
the reward score is unchanged, contradicting the claimed `+1`. -/
theorem set_timer_misrouted_bug :
    (allows (mikaInit govAllowTools).governor "2024-01-01T00:00:00"
        "tools.execute_code_in_sandbox").1.allowed = true
    ∧ (mikaInit govAllowTools).command_keys.contains
        (pyLower "set timer 5 minutes") = false
    ∧ (handle_input (mikaInit govAllowTools) "2024-01-01T00:00:00" 0
        "set timer 5 minutes" extPlain).2 = "I’m listening. Tell me more."
    ∧ (handle_input (mikaInit govAllowTools) "2024-01-01T00:00:00" 0
        "set timer 5 minutes" extPlain).1.score
      = (mikaInit govAllowTools).score := by
  refine ⟨by decide, by decide, by decide, by decide⟩
